import Mathlib

/-!
Verification development for the petabvis plotting/aggregation pipeline.

The Python source is shallowly embedded: pandas dataframes become lists of
records, pandas `groupby` becomes grouping by a key function over sorted
unique keys (pandas sorts group keys), numeric cells become rationals, and
fallible operations return `Except`.  `np.sqrt` is an opaque numeric
primitive of the environment; functions that use it take it as an explicit
parameter `sqrtFn : ℚ → ℚ`.
-/

namespace Petabvis

/-- Constant `petab.C.TIME`. -/
def TIME : String := "time"

/-- Constant `petab.C.MEASUREMENT`. -/
def MEASUREMENT : String := "measurement"

/-- Constant `petab.C.SIMULATION`. -/
def SIMULATION : String := "simulation"

/-- Constant `petab.C.SIMULATION_CONDITION_ID`. -/
def SIMULATION_CONDITION_ID : String := "simulationConditionId"

/-- Constant `petab.C.REPLICATE_ID`. -/
def REPLICATE_ID : String := "replicateId"

/-- Constant `petab.C.MEAN_AND_SD`. -/
def MEAN_AND_SD : String := "MeanAndSD"

/-- Constant `petab.C.MEAN_AND_SEM`. -/
def MEAN_AND_SEM : String := "MeanAndSEM"

/-- Constant `petab.C.PROVIDED`. -/
def PROVIDED : String := "provided"

/-- Constant `petab.C.REPLICATE`. -/
def REPLICATE : String := "replicate"

/-- One row of a PEtab measurement (or simulation) table, restricted to the
columns the aggregation helpers in `utils.py` touch. -/
structure MRow where
  time : ℚ
  simulationConditionId : String
  replicateId : String
  measurement : ℚ
  simulation : ℚ
  deriving DecidableEq, Repr

/-- A measurement table: its rows together with the information whether the
optional `replicateId` column is present (column presence is a property of
the dataframe, not of a row). -/
structure MTable where
  rows : List MRow
  hasReplicateId : Bool
  deriving DecidableEq, Repr

/-- Insert `x` into `l` in front of the first element that `x` compares
below, used by the insertion sort `isortBy`. -/
def insertLe {K : Type} (le : K → K → Bool) (x : K) : List K → List K
  | [] => [x]
  | y :: ys => if le x y then x :: y :: ys else y :: insertLe le x ys

/-- Insertion sort by a boolean comparison. -/
def isortBy {K : Type} (le : K → K → Bool) : List K → List K
  | [] => []
  | x :: xs => insertLe le x (isortBy le xs)

/-- Byte-wise lexicographic comparison of character lists, the order in
which `np.unique` and pandas `groupby` arrange string keys. -/
def strLeAux : List Char → List Char → Bool
  | [], _ => true
  | _ :: _, [] => false
  | a :: as, b :: bs => if a = b then strLeAux as bs else decide (a.val < b.val)

/-- Lexicographic comparison of strings. -/
def strLe (a b : String) : Bool :=
  strLeAux a.data b.data

/-- Comparison of rationals, for sorting numeric group keys. -/
def ratLe (a b : ℚ) : Bool :=
  decide (a ≤ b)

/-- Sorted unique key values of `rows` under `key`; pandas `groupby` sorts
its group keys, `np.unique` sorts as well.  `le` is the comparison the keys
are sorted by. -/
def sorted_keys {K : Type} [DecidableEq K] (le : K → K → Bool)
    (key : MRow → K) (rows : List MRow) : List K :=
  isortBy le (rows.map key).dedup

/-- Embedding of `line_data.groupby(grouping)`: the list of (group key,
rows of that group) pairs, one per unique key, keys sorted by `le`. -/
def groupby {K : Type} [DecidableEq K] (le : K → K → Bool) (key : MRow → K)
    (rows : List MRow) : List (K × List MRow) :=
  (sorted_keys le key rows).map
    (fun k => (k, rows.filter (fun r => decide (key r = k))))

/-- Arithmetic mean of a list of values (pandas `mean`). -/
def mean (xs : List ℚ) : ℚ :=
  xs.sum / xs.length

/-- Population variance, i.e. variance with `ddof = 0` (what `np.std` and
pandas `std(ddof=0)` take the square root of). -/
def popVar (xs : List ℚ) : ℚ :=
  (xs.map (fun x => (x - mean xs) ^ 2)).sum / xs.length

/-- Embedding of `utils.mean_replicates`: select the grouping column
(`time` for time plots, `simulationConditionId` otherwise), group, and take
the per-group mean of the y-variable column `yv`. -/
def mean_replicates (line_data : List MRow) (x_var : String) (yv : MRow → ℚ) :
    List ℚ :=
  if x_var ≠ TIME then
    (groupby strLe (fun r => r.simulationConditionId) line_data).map
      (fun g => mean (g.2.map yv))
  else
    (groupby ratLe (fun r => r.time) line_data).map (fun g => mean (g.2.map yv))

/-- The y-variable column picked by `sd_replicates`/`sem_replicates`:
`measurement`, or `simulation` when `is_simulation` is set. -/
def y_var_col (is_simulation : Bool) : MRow → ℚ :=
  if is_simulation then (fun r => r.simulation) else (fun r => r.measurement)

/-- Embedding of `utils.sd_replicates`: per-group standard deviation with
`ddof = 0`, i.e. the square root of the population variance.  `sqrtFn`
models `np.sqrt`. -/
def sd_replicates (sqrtFn : ℚ → ℚ) (line_data : List MRow) (x_var : String)
    (is_simulation : Bool) : List ℚ :=
  if x_var ≠ TIME then
    (groupby strLe (fun r => r.simulationConditionId) line_data).map
      (fun g => sqrtFn (popVar (g.2.map (y_var_col is_simulation))))
  else
    (groupby ratLe (fun r => r.time) line_data).map
      (fun g => sqrtFn (popVar (g.2.map (y_var_col is_simulation))))

/-- Python `len` applied to one element yielded by iterating a pandas
GroupBy object.  Iterating a GroupBy yields `(key, subframe)` 2-tuples, and
`len` of a 2-tuple is 2 — not the number of rows of the group. -/
def group_tuple_len {K : Type} (_ : K × List MRow) : Nat := 2

/-- Embedding of `n_replicates = [len(replicates) for replicates in
line_data.groupby(grouping)]` inside `utils.sem_replicates`. -/
def n_replicates (line_data : List MRow) (x_var : String) : List Nat :=
  if x_var ≠ TIME then
    (groupby strLe (fun r => r.simulationConditionId) line_data).map
      group_tuple_len
  else
    (groupby ratLe (fun r => r.time) line_data).map group_tuple_len

/-- Embedding of `utils.sem_replicates`: `sd / np.sqrt(n_replicates)`,
elementwise over the groups. -/
def sem_replicates (sqrtFn : ℚ → ℚ) (line_data : List MRow) (x_var : String)
    (is_simulation : Bool) : List ℚ :=
  List.zipWith (fun s n => s / sqrtFn n)
    (sd_replicates sqrtFn line_data x_var is_simulation)
    ((n_replicates line_data x_var).map (fun n => (n : ℚ)))

/-- Embedding of `utils.split_replicates`: when the `replicateId` column is
present, one sub-dataframe per unique replicate id (`np.unique` sorts);
otherwise the one-element list holding `line_data` itself. -/
def split_replicates (line_data : MTable) : List (List MRow) :=
  if line_data.hasReplicateId then
    (sorted_keys strLe (fun r => r.replicateId) line_data.rows).map
      (fun repl_id =>
        line_data.rows.filter (fun r => decide (r.replicateId = repl_id)))
  else
    [line_data.rows]

/-- Three replicate measurements at the same time point, a concrete
measurement subset used to evaluate the aggregation helpers. -/
def demo_rows : List MRow :=
  [⟨0, "c0", "r1", 1, 0⟩, ⟨0, "c0", "r2", 2, 0⟩, ⟨0, "c0", "r3", 3, 0⟩]

/-- A concrete measurement table with a `replicateId` column, two replicate
groups. -/
def demo_table : MTable :=
  ⟨[⟨0, "c0", "r1", 1, 0⟩, ⟨0, "c0", "r2", 2, 0⟩, ⟨1, "c0", "r1", 3, 0⟩], true⟩

/-- Centered second moment of a sample: the sum of squared deviations from
the sample mean (`ssxm`/`ssym` in `scipy.stats.linregress`, up to the
common `1/n` normalization that cancels in the correlation ratio). -/
def ssx (xs : List ℚ) : ℚ :=
  (xs.map (fun x => (x - xs.sum / xs.length) ^ 2)).sum

/-- Centered mixed moment of a paired sample (`ssxym` in
`scipy.stats.linregress`, up to the same `1/n` normalization). -/
def ssxy (xs ys : List ℚ) : ℚ :=
  ((xs.zip ys).map
    (fun p => (p.1 - xs.sum / xs.length) * (p.2 - ys.sum / ys.length))).sum

/-- Square of the `r_value` returned by `scipy.stats.linregress(xs, ys)`:
zero when a sample is constant (scipy sets `r = 0` when the denominator
vanishes), else the squared centered mixed moment over the product of the
centered second moments. -/
def linregress_r_sq (xs ys : List ℚ) : ℚ :=
  if ssx xs * ssx ys = 0 then 0 else ssxy xs ys ^ 2 / (ssx xs * ssx ys)

/-- Embedding of `utils.r_squared`: 0 when either list is empty (falsy),
an error when scipy rejects the paired sample (unequal lengths), else the
squared correlation from the linear regression of `simulations` on
`measurements`. -/
def r_squared (measurements simulations : List ℚ) : Except String ℚ :=
  if measurements = [] ∨ simulations = [] then .ok 0
  else if measurements.length ≠ simulations.length then
    .error "ValueError: unequal length arrays passed to linregress"
  else .ok (linregress_r_sq measurements simulations)

/-- Embedding of `PlotClass.get_r_squared`, whose numeric behaviour is the
same as `utils.r_squared` (it additionally prints the regression
statistics). -/
def get_r_squared (measurements simulations : List ℚ) : Except String ℚ :=
  if measurements = [] ∨ simulations = [] then .ok 0
  else if measurements.length ≠ simulations.length then
    .error "ValueError: unequal length arrays passed to linregress"
  else .ok (linregress_r_sq measurements simulations)

/-- Specification-side definition, following the spec's words: the square
of the Pearson correlation coefficient of the paired sample, written with
raw moments. -/
def pearson_r_squared_spec (xs ys : List ℚ) : ℚ :=
  ((xs.length : ℚ) * ((xs.zip ys).map (fun p => p.1 * p.2)).sum
      - xs.sum * ys.sum) ^ 2
    / (((xs.length : ℚ) * (xs.map (fun x => x ^ 2)).sum - xs.sum ^ 2)
        * ((xs.length : ℚ) * (ys.map (fun y => y ^ 2)).sum - ys.sum ^ 2))

/-- One row of the overview dataframe a `VisSpecPlot` builds (columns `x`,
`y`, `name`, `is_simulation`, `dataset_id`, `x_label`, `observable_id`,
`simulation_condition_id`). -/
structure ORow where
  x : ℚ
  y : ℚ
  name : String
  is_simulation : Bool
  dataset_id : String
  x_label : String
  observable_id : String
  simulation_condition_id : String
  deriving DecidableEq, Repr

/-- State of a `VisSpecPlot` with a simulation table loaded, restricted to
what the R²-text logic touches: the overview dataframe, the set of disabled
dataset ids, and the displayed R² value. -/
structure VisPlotState where
  overview_df : List ORow
  disabled_rows : Finset String
  r_squared_text : Except String ℚ

/-- Constant `C.DATASET_ID` of the repository's own `C.py` (distinct from
the petab constant `datasetId` and from the lowercase `dataset_id` column
label the overview dataframes of `VisSpecPlot` use). -/
def C_DATASET_ID : String := "Dataset ID"

/-- The column labels of the overview dataframe a `VisSpecPlot` builds:
the `generate_overview_df` placeholder columns, which are also exactly the
keys `RowClass.get_data_df` uses for the concatenated frames (all
lowercase). -/
def vis_overview_columns : List String :=
  ["x", "y", "name", "is_simulation", "dataset_id", "x_label",
   "observable_id", "simulation_condition_id"]

/-- Embedding of
`overview_df[~overview_df[C.DATASET_ID].isin(disabled_rows)]` on a
`VisSpecPlot` overview: pandas first evaluates
`overview_df[C.DATASET_ID]`, which raises a `KeyError` unless
`C.DATASET_ID` is one of the overview's column labels; on success the rows
whose dataset id is disabled are filtered out. -/
def enabled_overview (overview : List ORow) (disabled : Finset String) :
    Except String (List ORow) :=
  if C_DATASET_ID ∈ vis_overview_columns then
    .ok (overview.filter (fun r => !decide (r.dataset_id ∈ disabled)))
  else .error "KeyError: Dataset ID"

/-- The `y` values of the measurement rows of an already row-filtered
overview (`overview_df[~overview_df[C.IS_SIMULATION]][C.Y].tolist()`;
`C.IS_SIMULATION` and `C.Y` are the lowercase labels `is_simulation` and
`y`, which the overview does have). -/
def overview_measurements (rows : List ORow) : List ℚ :=
  (rows.filter (fun r => !r.is_simulation)).map (fun r => r.y)

/-- The `y` values of the simulation rows of an already row-filtered
overview (`overview_df[overview_df[C.IS_SIMULATION]][C.Y].tolist()`). -/
def overview_simulations (rows : List ORow) : List ℚ :=
  (rows.filter (fun r => r.is_simulation)).map (fun r => r.y)

/-- Embedding of `PlotClass.update_r_squared_text` on a `VisSpecPlot`:
filter the overview by the disabled rows (which may raise, see
`enabled_overview`), recompute the R² value from the remaining measurement
and simulation rows and set the displayed text; a raised exception leaves
the state unchanged and propagates. -/
def update_r_squared_text (st : VisPlotState) : Except String VisPlotState :=
  match enabled_overview st.overview_df st.disabled_rows with
  | .error e => .error e
  | .ok enabled =>
      .ok { st with r_squared_text :=
              (get_r_squared (overview_measurements enabled)
                (overview_simulations enabled)) }

/-- Embedding of `VisSpecPlot.add_or_remove_line` for a plot with a
simulation table loaded: first toggle the dataset id in `disabled_rows`,
then (through `enable_correlation_points`/`disable_correlation_points`)
update the displayed R² text.  A Python exception raised by the update
propagates out of the call but leaves the already performed set mutation
in place, so the result is the final object state paired with the
propagated exception message, if any. -/
def add_or_remove_line (st : VisPlotState) (dataset_id : String) :
    VisPlotState × Option String :=
  let toggled :=
    if dataset_id ∈ st.disabled_rows then
      { st with disabled_rows := st.disabled_rows.erase dataset_id }
    else
      { st with disabled_rows := insert dataset_id st.disabled_rows }
  match update_r_squared_text toggled with
  | .ok updated => (updated, none)
  | .error e => (toggled, some e)

/-- Embedding of the `disabled_rows` update in `BarPlot.add_or_remove_line`
(the bar plot then replots everything from the updated set). -/
def bar_add_or_remove_line (disabled_rows : Finset String)
    (dataset_id : String) : Finset String :=
  if dataset_id ∈ disabled_rows then disabled_rows.erase dataset_id
  else insert dataset_id disabled_rows

/-- A dataframe: column labels and rows of cells. -/
structure DataFrame where
  columns : List String
  rows : List (List String)
  deriving DecidableEq, Repr

/-- The cells of `row` that survive dropping the column labeled `label`
(cells are matched to labels positionally). -/
def drop_row (cols : List String) (label : String) (row : List String) :
    List String :=
  ((cols.zip row).filter (fun p => !decide (p.1 = label))).map (fun p => p.2)

/-- Embedding of pandas `df.drop(label, 1)`: remove every column with the
given label, or raise a `KeyError` when no column carries it. -/
def drop_column (df : DataFrame) (label : String) : Except String DataFrame :=
  if label ∈ df.columns then
    .ok ⟨df.columns.filter (fun c => !decide (c = label)),
         df.rows.map (drop_row df.columns label)⟩
  else .error "KeyError"

/-- The table handed to `to_csv`, together with the separator and index
options used for the write. -/
structure SavedTable where
  table : DataFrame
  sep : String
  index : Bool
  deriving DecidableEq, Repr

/-- Embedding of `OptionMenu.save_vis_spec`: drop the `Displayed` checkbox
column from the in-memory visualization dataframe and write the result
tab-separated without the index
(`vis_spec.to_csv(filename, sep="\t", index=False)`). -/
def save_vis_spec (visualization_df : DataFrame) : Except String SavedTable :=
  (drop_column visualization_df "Displayed").map (fun t => ⟨t, "\t", false⟩)

/-- Looking a column's value up in a row by column label (first matching
label, as pandas column access does for a Series). -/
def cell (cols : List String) (row : List String) (c : String) :
    Option String :=
  ((cols.zip row).find? (fun p => decide (p.1 = c))).map (fun p => p.2)

/-- Column labels of the dataframe built by `BarRow.get_data_df` (the
dictionary keys of the `pd.DataFrame({...})` construction: the lowercase
`C.Y`, `C.NAME`, `C.IS_SIMULATION`, `C.SD`, `C.SEM` constants together
with `C.DATASET_ID = "Dataset ID"`,
`C.SIMULATION_CONDITION_ID = "Simulation condition ID"` and
`C.OBSERVABLE_ID = "Observable ID"`). -/
def bar_get_data_df_columns : List String :=
  ["y", "name", "is_simulation", "Dataset ID", "sd", "sem",
   "Simulation condition ID", "Observable ID"]

/-- Column labels of `BarPlot.get_bars_df`: the concatenated
`BarRow.get_data_df` frames with the `x` and `tick_pos` columns assigned. -/
def get_bars_df_columns : List String :=
  bar_get_data_df_columns ++ ["x", "tick_pos"]

/-- The overview column `BarPlot.generate_plot` reads the error-bar lengths
from: `sd` by default, overridden to `sem` when the first bar row's plot
type for data is `MeanAndSEM` and to `provided_noise` when it is
`provided`. -/
def error_length_column (plot_type_data : String) : String :=
  let e := "sd"
  let e := if plot_type_data = MEAN_AND_SEM then "sem" else e
  if plot_type_data = PROVIDED then "provided_noise" else e

/-- Embedding of `BarRow.get_sd`: `np.std` (population standard deviation)
of the bar's y-values. -/
def bar_get_sd (sqrtFn : ℚ → ℚ) (y_values : List ℚ) : ℚ :=
  sqrtFn (popVar y_values)

/-- Embedding of `BarRow.get_sem`: the standard deviation divided by the
square root of the number of y-values. -/
def bar_get_sem (sqrtFn : ℚ → ℚ) (y_values : List ℚ) : ℚ :=
  bar_get_sd sqrtFn y_values / sqrtFn (y_values.length)

/-- State of the main window as far as plot selection is concerned: the
number of plots in `vis_spec_plots` and the current list index. -/
structure MainState where
  n_plots : ℕ
  current_list_index : ℤ
  deriving DecidableEq, Repr

/-- Embedding of `MainWindow.index_changed`: display plot `i` and remember
the index only when `0 <= i < len(self.vis_spec_plots)`. -/
def index_changed (st : MainState) (i : ℤ) : MainState :=
  if 0 ≤ i ∧ i < (st.n_plots : ℤ) then { st with current_list_index := i }
  else st

/-- The arrow keys handled by `MainWindow.keyPressEvent`. -/
inductive ArrowKey where
  | up
  | down
  | left
  | right
  deriving DecidableEq, Repr

/-- Embedding of the arrow-key branches of `MainWindow.keyPressEvent`:
up/left move to the previous index, down/right to the next, each through
`index_changed`. -/
def keyPressEvent (st : MainState) (k : ArrowKey) : MainState :=
  match k with
  | .up => index_changed st (st.current_list_index - 1)
  | .down => index_changed st (st.current_list_index + 1)
  | .left => index_changed st (st.current_list_index - 1)
  | .right => index_changed st (st.current_list_index + 1)

/-- The attributes of a `RowClass` that `get_data_df` reads. -/
structure RowClass where
  x_data : List ℚ
  y_data : List ℚ
  legend_name : String
  is_simulation : Bool
  dataset_id : String
  x_label : String
  deriving DecidableEq, Repr

/-- One row of the dataframe built by `RowClass.get_data_df`. -/
structure DRow where
  x : ℚ
  y : ℚ
  name : String
  is_simulation : Bool
  dataset_id : String
  x_label : String
  deriving DecidableEq, Repr, Inhabited

/-- Embedding of `RowClass.get_data_df`: one dataframe row per x/y pair
with the scalar attributes broadcast to every row, or an exception when the
x- and y-data lengths differ. -/
def get_data_df (rc : RowClass) : Except String (List DRow) :=
  if rc.x_data.length = rc.y_data.length then
    .ok ((rc.x_data.zip rc.y_data).map
      (fun p => ⟨p.1, p.2, rc.legend_name, rc.is_simulation, rc.dataset_id,
                 rc.x_label⟩))
  else .error "Error: The number of x- and y-values are different"

/-- A concrete visualization-plot state: one measurement and one simulation
overview row, both with dataset id `d1`, nothing disabled. -/
def demo_vis_state : VisPlotState :=
  ⟨[⟨0, 1, "m", false, "d1", "time", "obs1", "c0"⟩,
    ⟨0, 2, "s", true, "d1", "time", "obs1", "c0"⟩], ∅, .ok 0⟩

/-- A concrete visualization dataframe with the inserted `Displayed`
checkbox column in front. -/
def demo_vis_df : DataFrame :=
  ⟨["Displayed", "plotId"], [["1", "plot1"]]⟩

/-- A concrete `RowClass` with two x/y pairs. -/
def demo_rc : RowClass :=
  ⟨[1, 2], [3, 4], "line1", false, "d1", "time"⟩

/-- The dataframe `get_data_df` builds from `demo_rc`. -/
def demo_drows : List DRow :=
  [⟨1, 3, "line1", false, "d1", "time"⟩, ⟨2, 4, "line1", false, "d1", "time"⟩]

/-- Inserting with `insertLe` is a permutation of consing. -/
theorem insertLe_perm {K : Type} (le : K → K → Bool) (x : K) (l : List K) :
    (insertLe le x l).Perm (x :: l) := by
  induction l with
  | nil => simp [insertLe]
  | cons y ys ih =>
      by_cases h : le x y
      · simp [insertLe, h]
      · simp only [insertLe, h, if_false]
        exact ((ih.cons y).trans (List.Perm.swap x y ys))

/-- Insertion sort permutes its input. -/
theorem isortBy_perm {K : Type} (le : K → K → Bool) (l : List K) :
    (isortBy le l).Perm l := by
  induction l with
  | nil => simp [isortBy]
  | cons x xs ih =>
      exact (insertLe_perm le x (isortBy le xs)).trans (ih.cons x)

/-- The sorted key list contains exactly the keys occurring in `rows`. -/
theorem mem_sorted_keys {K : Type} [DecidableEq K] (le : K → K → Bool)
    (key : MRow → K) (rows : List MRow) (k : K) :
    k ∈ sorted_keys le key rows ↔ k ∈ rows.map key := by
  rw [sorted_keys, (isortBy_perm le _).mem_iff, List.mem_dedup]

/-- The sorted key list has no duplicates. -/
theorem sorted_keys_nodup {K : Type} [DecidableEq K] (le : K → K → Bool)
    (key : MRow → K) (rows : List MRow) :
    (sorted_keys le key rows).Nodup :=
  ((isortBy_perm le _).nodup_iff).mpr (List.nodup_dedup _)

/-- Counting helper: counting `r` in a filtered list keeps the count when
`r` satisfies the predicate and drops it to zero otherwise. -/
theorem count_filter_eq (r : MRow) (rows : List MRow) (p : MRow → Bool) :
    (rows.filter p).count r = if p r then rows.count r else 0 := by
  induction rows with
  | nil => simp
  | cons a l ih =>
      by_cases ha : a = r
      · subst ha
        by_cases hp : p a <;> simp [List.filter_cons, hp, List.count_cons, ih]
      · by_cases hp : p a <;>
          simp [List.filter_cons, hp, List.count_cons, Ne.symm ha, ih]

/-- Summing the counts of `r` over the per-key filtered sublists gives the
total count of `r` when its key occurs in the (duplicate-free) key list,
and zero otherwise. -/
theorem sum_count_filter_keys (r : MRow) (rows : List MRow) (keys : List String)
    (hnd : keys.Nodup) :
    (keys.map (fun k =>
        (rows.filter (fun x => decide (x.replicateId = k))).count r)).sum
      = if r.replicateId ∈ keys then rows.count r else 0 := by
  induction keys with
  | nil => simp
  | cons k ks ih =>
      have htail := ih hnd.of_cons
      rw [List.map_cons, List.sum_cons, htail, count_filter_eq]
      by_cases hk : r.replicateId = k
      · have hkn : k ∉ ks := (List.nodup_cons.mp hnd).1
        simp [hk, hkn]
      · simp [hk]

/-- C10: `split_replicates` returns the whole table as a singleton list when
no `replicateId` column is present; when the column is present, the
sub-dataframes are exactly the groups of rows with equal `replicateId`, and
every row of `line_data` lands in exactly one sub-dataframe (stated as a
multiset partition: summed per-group occurrence counts equal the occurrence
count in `line_data`). -/
theorem split_replicates_partition (t : MTable) :
    (t.hasReplicateId = false → split_replicates t = [t.rows]) ∧
    (t.hasReplicateId = true →
      (∀ r : MRow,
        ((split_replicates t).map (fun g => g.count r)).sum = t.rows.count r) ∧
      (∀ g ∈ split_replicates t, ∃ repl_id,
        g = t.rows.filter (fun r => decide (r.replicateId = repl_id)))) := by
  constructor
  · intro h
    simp [split_replicates, h]
  · intro h
    constructor
    · intro r
      have hnd := sorted_keys_nodup strLe (fun r => r.replicateId) t.rows
      rw [split_replicates, if_pos (by simp [h]), List.map_map]
      have hsum := sum_count_filter_keys r t.rows
        (sorted_keys strLe (fun r => r.replicateId) t.rows) hnd
      simp only [Function.comp_def] at hsum ⊢
      rw [hsum]
      by_cases hmem :
          r.replicateId ∈ sorted_keys strLe (fun r => r.replicateId) t.rows
      · simp [hmem]
      · have hrow : r ∉ t.rows := by
          intro hr
          exact hmem ((mem_sorted_keys strLe (fun r => r.replicateId)
            t.rows r.replicateId).mpr (List.mem_map_of_mem _ hr))
        simp [hmem, List.count_eq_zero.mpr hrow]
    · intro g hg
      rw [split_replicates, if_pos (by simp [h])] at hg
      rcases List.mem_map.mp hg with ⟨repl_id, _, rfl⟩
      exact ⟨repl_id, rfl⟩

/-- C1: evaluation of `sem_replicates` at a concrete measurement subset of
three rows sharing one time point.  The code's `n_replicates` list (built
with `len(replicates)` over the iterated GroupBy, i.e. over `(key, group)`
2-tuples) is `[2]` although the single group has 3 rows, so the group's
standard deviation is divided by `sqrt 2` instead of `sqrt 3`: the code
contradicts the claim (and its own docstring, which promises the standard
error of the mean). -/
theorem sem_replicates_divides_by_tuple_len (f : ℚ → ℚ) :
    n_replicates demo_rows TIME = [2] ∧
    (groupby ratLe (fun r => r.time) demo_rows).map (fun g => g.2.length)
      = [3] ∧
    sem_replicates f demo_rows TIME false = [f (2 / 3) / f 2] := by
  refine ⟨by decide, by decide, ?_⟩
  have hg : groupby ratLe (fun r => r.time) demo_rows = [(0, demo_rows)] := by
    decide
  have hv : popVar (demo_rows.map (y_var_col false)) = 2 / 3 := by
    norm_num [demo_rows, y_var_col, popVar, mean]
  simp [sem_replicates, sd_replicates, n_replicates, TIME, hg, hv,
    group_tuple_len]

/-- C3: `mean_replicates` groups by `time` when the x-variable is `time`
and by `simulationConditionId` otherwise, and returns one value per group,
namely the sum of the y-variable column over the group's rows divided by
the number of rows in the group (the arithmetic mean). -/
theorem mean_replicates_spec (line_data : List MRow) (yv : MRow → ℚ) :
    mean_replicates line_data TIME yv
        = (sorted_keys ratLe (fun r => r.time) line_data).map
            (fun t =>
              ((line_data.filter (fun r => decide (r.time = t))).map yv).sum
                / ((line_data.filter
                    (fun r => decide (r.time = t))).length : ℚ)) ∧
    ∀ x_var : String, x_var ≠ TIME →
      mean_replicates line_data x_var yv
        = (sorted_keys strLe (fun r => r.simulationConditionId) line_data).map
            (fun c =>
              ((line_data.filter
                  (fun r => decide (r.simulationConditionId = c))).map
                    yv).sum
                / ((line_data.filter
                    (fun r =>
                      decide (r.simulationConditionId = c))).length : ℚ)) := by
  constructor
  · simp [mean_replicates, groupby, mean, List.map_map, Function.comp_def]
  · intro x_var hx
    simp [mean_replicates, groupby, mean, hx, List.map_map, Function.comp_def]

/-- Witness for C3 at a concrete measurement subset and a non-time
x-variable, together with the concrete evaluation of the mean. -/
theorem mean_replicates_spec_witness :
    ("concentration" : String) ≠ TIME ∧
    mean_replicates demo_rows "concentration" (fun r => r.measurement)
      = (sorted_keys strLe (fun r => r.simulationConditionId) demo_rows).map
          (fun c =>
            ((demo_rows.filter
                (fun r => decide (r.simulationConditionId = c))).map
                  (fun r => r.measurement)).sum
              / ((demo_rows.filter
                  (fun r =>
                    decide (r.simulationConditionId = c))).length : ℚ)) ∧
    mean_replicates demo_rows "concentration" (fun r => r.measurement)
      = [2] :=
  ⟨by decide,
   (mean_replicates_spec demo_rows (fun r => r.measurement)).2
     "concentration" (by decide),
   by
    have hg : groupby strLe (fun r => r.simulationConditionId) demo_rows
        = [("c0", demo_rows)] := by decide
    rw [mean_replicates,
      if_pos (by decide : ("concentration" : String) ≠ TIME), hg]
    norm_num [mean, demo_rows, List.sum_cons, List.sum_nil]⟩

/-- Witness for C10 at a concrete table: the partition property evaluated
for a concrete row, plus the concrete value of the split. -/
theorem split_replicates_partition_witness :
    demo_table.hasReplicateId = true ∧
    ((split_replicates demo_table).map
        (fun g => g.count (⟨0, "c0", "r1", 1, 0⟩ : MRow))).sum
      = demo_table.rows.count (⟨0, "c0", "r1", 1, 0⟩ : MRow) ∧
    split_replicates demo_table
      = [[⟨0, "c0", "r1", 1, 0⟩, ⟨1, "c0", "r1", 3, 0⟩],
         [⟨0, "c0", "r2", 2, 0⟩]] :=
  ⟨rfl,
   ((split_replicates_partition demo_table).2 rfl).1 ⟨0, "c0", "r1", 1, 0⟩,
   by decide⟩

/-- Expanding a sum of squared deviations from an arbitrary center. -/
theorem sum_sq_sub (xs : List ℚ) (c : ℚ) :
    (xs.map (fun x => (x - c) ^ 2)).sum
      = (xs.map (fun x => x ^ 2)).sum - 2 * c * xs.sum
        + (xs.length : ℚ) * c ^ 2 := by
  induction xs with
  | nil => simp
  | cons a l ih =>
      simp only [List.map_cons, List.sum_cons, List.length_cons, ih]
      push_cast
      ring

/-- Expanding a sum of products of deviations from arbitrary centers. -/
theorem sum_mul_sub (xs : List ℚ) (c d : ℚ) :
    ∀ ys : List ℚ, xs.length = ys.length →
      ((xs.zip ys).map (fun p => (p.1 - c) * (p.2 - d))).sum
        = ((xs.zip ys).map (fun p => p.1 * p.2)).sum - c * ys.sum
          - d * xs.sum + (xs.length : ℚ) * (c * d) := by
  induction xs with
  | nil =>
      intro ys h
      cases ys with
      | nil => simp
      | cons b bs => simp at h
  | cons a as ih =>
      intro ys h
      cases ys with
      | nil => simp at h
      | cons b bs =>
          have h' : as.length = bs.length := by simpa using h
          simp only [List.zip_cons_cons, List.map_cons, List.sum_cons,
            List.length_cons, ih bs h']
          push_cast
          ring

/-- Closed form of the centered second moment, cleared of denominators. -/
theorem ssx_closed (xs : List ℚ) (hx : xs ≠ []) :
    (xs.length : ℚ) * ssx xs
      = (xs.length : ℚ) * (xs.map (fun x => x ^ 2)).sum - xs.sum ^ 2 := by
  have hn : (xs.length : ℚ) ≠ 0 :=
    Nat.cast_ne_zero.mpr (fun h => hx (List.length_eq_zero.mp h))
  rw [ssx, sum_sq_sub]
  field_simp
  ring

/-- Closed form of the centered mixed moment, cleared of denominators. -/
theorem ssxy_closed (xs ys : List ℚ) (hx : xs ≠ []) (hy : ys ≠ [])
    (hlen : xs.length = ys.length) :
    (xs.length : ℚ) * ssxy xs ys
      = (xs.length : ℚ) * ((xs.zip ys).map (fun p => p.1 * p.2)).sum
        - xs.sum * ys.sum := by
  have hn : (xs.length : ℚ) ≠ 0 :=
    Nat.cast_ne_zero.mpr (fun h => hx (List.length_eq_zero.mp h))
  have hm : (ys.length : ℚ) ≠ 0 :=
    Nat.cast_ne_zero.mpr (fun h => hy (List.length_eq_zero.mp h))
  rw [ssxy, sum_mul_sub xs _ _ ys hlen]
  field_simp
  rw [hlen]
  ring

/-- The squared regression `r_value` agrees with the raw-moment form of
the squared Pearson correlation coefficient. -/
theorem linregress_eq_pearson (xs ys : List ℚ) (hx : xs ≠ []) (hy : ys ≠ [])
    (hlen : xs.length = ys.length) :
    linregress_r_sq xs ys = pearson_r_squared_spec xs ys := by
  have hn : (xs.length : ℚ) ≠ 0 :=
    Nat.cast_ne_zero.mpr (fun h => hx (List.length_eq_zero.mp h))
  have h1 := ssx_closed xs hx
  have h2 := ssx_closed ys hy
  rw [← hlen] at h2
  have h3 := ssxy_closed xs ys hx hy hlen
  rw [linregress_r_sq, pearson_r_squared_spec, ← h1, ← h2, ← h3]
  by_cases h0 : ssx xs * ssx ys = 0
  · rw [if_pos h0,
      show ((xs.length : ℚ) * ssx xs) * ((xs.length : ℚ) * ssx ys)
          = (xs.length : ℚ) ^ 2 * (ssx xs * ssx ys) by ring,
      h0, mul_zero, div_zero]
  · rw [if_neg h0,
      show ((xs.length : ℚ) * ssxy xs ys) ^ 2
          = (xs.length : ℚ) ^ 2 * ssxy xs ys ^ 2 by ring,
      show ((xs.length : ℚ) * ssx xs) * ((xs.length : ℚ) * ssx ys)
          = (xs.length : ℚ) ^ 2 * (ssx xs * ssx ys) by ring,
      mul_div_mul_left _ _ (pow_ne_zero 2 hn)]

/-- C2: for equally long value lists, the R² computation (`utils.r_squared`
and `PlotClass.get_r_squared` alike) returns 0 when either list is empty
and otherwise the square of the Pearson correlation coefficient of the
regression of simulations on measurements. -/
theorem r_squared_spec (measurements simulations : List ℚ)
    (hlen : measurements.length = simulations.length) :
    r_squared measurements simulations
        = .ok (if measurements = [] then 0
               else pearson_r_squared_spec measurements simulations) ∧
    get_r_squared measurements simulations
        = r_squared measurements simulations := by
  refine ⟨?_, rfl⟩
  by_cases hm : measurements = []
  · have hs : simulations = [] := by
      subst hm
      exact (List.length_eq_zero.mp hlen.symm)
    simp [r_squared, hm, hs]
  · have hs : simulations ≠ [] := by
      intro h
      subst h
      exact hm (List.length_eq_zero.mp (by simpa using hlen))
    rw [r_squared, if_neg (by simp [hm, hs]), if_neg (by simp [hlen]),
      if_neg hm, linregress_eq_pearson measurements simulations hm hs hlen]

/-- Witness for C2 at a concrete paired sample, with the resulting value
computed explicitly: for measurements `[1,2,3]` and simulations `[2,4,7]`
the R² value is `75/76`. -/
theorem r_squared_spec_witness :
    ([1, 2, 3] : List ℚ).length = ([2, 4, 7] : List ℚ).length ∧
    r_squared [1, 2, 3] [2, 4, 7]
      = .ok (if ([1, 2, 3] : List ℚ) = [] then 0
             else pearson_r_squared_spec [1, 2, 3] [2, 4, 7]) ∧
    r_squared [1, 2, 3] [2, 4, 7] = .ok (75 / 76) :=
  ⟨rfl,
   (r_squared_spec [1, 2, 3] [2, 4, 7] rfl).1,
   by
    rw [r_squared, if_neg (by decide), if_neg (by decide)]
    norm_num [linregress_r_sq, ssx, ssxy]⟩

/-- Toggling a dataset id in a plain disabled-rows set flips its
membership, is an involution, and leaves other ids untouched. -/
theorem bar_toggle_props (s : Finset String) (id other : String) :
    (id ∈ bar_add_or_remove_line s id ↔ id ∉ s) ∧
    bar_add_or_remove_line (bar_add_or_remove_line s id) id = s ∧
    (other ≠ id → (other ∈ bar_add_or_remove_line s id ↔ other ∈ s)) := by
  by_cases h : id ∈ s
  · refine ⟨by simp [bar_add_or_remove_line, h], ?_, ?_⟩
    · have h2 : id ∉ s.erase id := Finset.not_mem_erase id s
      simp [bar_add_or_remove_line, h, h2, Finset.insert_erase h]
    · intro ho
      simp [bar_add_or_remove_line, h, Finset.mem_erase, ho]
  · refine ⟨by simp [bar_add_or_remove_line, h], ?_, ?_⟩
    · have h2 : id ∈ insert id s := Finset.mem_insert_self id s
      simp [bar_add_or_remove_line, h, h2, Finset.erase_insert h]
    · intro ho
      simp [bar_add_or_remove_line, h, Finset.mem_insert, ho]

/-- On a `VisSpecPlot` overview the disabled-rows filter always raises:
`C.DATASET_ID = "Dataset ID"` is not among the overview's lowercase column
labels. -/
theorem enabled_overview_error (overview : List ORow)
    (disabled : Finset String) :
    enabled_overview overview disabled = .error "KeyError: Dataset ID" := by
  rw [enabled_overview, if_neg (by decide)]

/-- `update_r_squared_text` on a `VisSpecPlot` always propagates the
`KeyError` and never changes the state. -/
theorem update_r_squared_text_error (st : VisPlotState) :
    update_r_squared_text st = .error "KeyError: Dataset ID" := by
  simp [update_r_squared_text, enabled_overview_error]

/-- The disabled-rows set after `VisSpecPlot.add_or_remove_line` is the
plain toggle of the previous set (the set mutation is the first statement
of each branch; the failing R²-text update does not touch it). -/
theorem add_or_remove_line_disabled_rows (st : VisPlotState) (id : String) :
    (add_or_remove_line st id).1.disabled_rows
      = bar_add_or_remove_line st.disabled_rows id := by
  by_cases h : id ∈ st.disabled_rows <;>
    simp [add_or_remove_line, bar_add_or_remove_line,
      update_r_squared_text_error, h]

/-- C4: one `add_or_remove_line` call (on a `VisSpecPlot` and on a
`BarPlot` alike) puts the dataset id into the disabled-rows set exactly
when it was absent and removes it exactly when it was present, leaves all
other ids unchanged, and calling it twice restores the original set. -/
theorem add_or_remove_line_toggles (st : VisPlotState) (s : Finset String)
    (dataset_id other : String) :
    ((dataset_id ∈ (add_or_remove_line st dataset_id).1.disabled_rows
        ↔ dataset_id ∉ st.disabled_rows) ∧
      (add_or_remove_line (add_or_remove_line st dataset_id).1
          dataset_id).1.disabled_rows = st.disabled_rows ∧
      (other ≠ dataset_id →
        (other ∈ (add_or_remove_line st dataset_id).1.disabled_rows
          ↔ other ∈ st.disabled_rows))) ∧
    ((dataset_id ∈ bar_add_or_remove_line s dataset_id
        ↔ dataset_id ∉ s) ∧
      bar_add_or_remove_line (bar_add_or_remove_line s dataset_id)
          dataset_id = s ∧
      (other ≠ dataset_id →
        (other ∈ bar_add_or_remove_line s dataset_id ↔ other ∈ s))) := by
  refine ⟨⟨?_, ?_, ?_⟩, bar_toggle_props s dataset_id other⟩
  · rw [add_or_remove_line_disabled_rows]
    exact (bar_toggle_props st.disabled_rows dataset_id other).1
  · rw [add_or_remove_line_disabled_rows, add_or_remove_line_disabled_rows]
    exact (bar_toggle_props st.disabled_rows dataset_id other).2.1
  · intro ho
    rw [add_or_remove_line_disabled_rows]
    exact (bar_toggle_props st.disabled_rows dataset_id other).2.2 ho

/-- Witness for C4 at a concrete state and ids. -/
theorem add_or_remove_line_toggles_witness :
    ("d2" : String) ≠ "d1" ∧
    ("d1" ∈ (add_or_remove_line demo_vis_state "d1").1.disabled_rows
      ↔ "d1" ∉ demo_vis_state.disabled_rows) ∧
    (add_or_remove_line (add_or_remove_line demo_vis_state "d1").1
        "d1").1.disabled_rows = demo_vis_state.disabled_rows ∧
    ("d2" ∈ (add_or_remove_line demo_vis_state "d1").1.disabled_rows
      ↔ "d2" ∈ demo_vis_state.disabled_rows) :=
  ⟨by decide,
   (add_or_remove_line_toggles demo_vis_state ∅ "d1" "d2").1.1,
   (add_or_remove_line_toggles demo_vis_state ∅ "d1" "d2").1.2.1,
   (add_or_remove_line_toggles demo_vis_state ∅ "d1" "d2").1.2.2
     (by decide)⟩

/-- C5: the claim fails on this source.  `update_r_squared_text` filters
`self.overview_df[C.DATASET_ID]` with `C.DATASET_ID = "Dataset ID"`, but a
`VisSpecPlot` overview carries only the lowercase `dataset_id` column, so
every `add_or_remove_line` toggle propagates a `KeyError` out of the
R²-text update: the displayed R² value is never recomputed from the
enabled overview rows (the toggled state keeps its previous text). -/
theorem r_squared_text_keyerror (st : VisPlotState) (dataset_id : String) :
    C_DATASET_ID ∉ vis_overview_columns ∧
    (add_or_remove_line st dataset_id).2 = some "KeyError: Dataset ID" ∧
    (add_or_remove_line st dataset_id).1.r_squared_text
      = st.r_squared_text := by
  refine ⟨by decide, ?_, ?_⟩ <;>
    by_cases h : dataset_id ∈ st.disabled_rows <;>
      simp [add_or_remove_line, update_r_squared_text_error, h]

/-- Dropping a labeled column commutes with looking up any other column:
the positional cells of all other columns are unchanged. -/
theorem cell_drop_row (label c : String) (hc : c ≠ label) :
    ∀ cols row : List String, row.length = cols.length →
      cell (cols.filter (fun x => !decide (x = label)))
          (drop_row cols label row) c
        = cell cols row c := by
  intro cols
  induction cols with
  | nil =>
      intro row h
      have hr : row = [] := List.length_eq_zero.mp h
      subst hr
      rfl
  | cons a as ih =>
      intro row h
      cases row with
      | nil => simp at h
      | cons v vs =>
          have h' : vs.length = as.length := by simpa using h
          by_cases ha : a = label
          · subst ha
            simpa [cell, drop_row, List.filter_cons, List.zip_cons_cons,
              Ne.symm hc] using ih vs h'
          · have hfilter : (a :: as).filter (fun x => !decide (x = label))
                = a :: as.filter (fun x => !decide (x = label)) := by
              simp [List.filter_cons, ha]
            have hdrop : drop_row (a :: as) label (v :: vs)
                = v :: drop_row as label vs := by
              simp [drop_row, List.zip_cons_cons, List.filter_cons, ha]
            rw [hfilter, hdrop]
            by_cases hac : a = c
            · simp [cell, List.zip_cons_cons, hac]
            · simpa [cell, List.zip_cons_cons, hac] using ih vs h'

/-- C6: saving the visualization table writes the in-memory dataframe with
exactly the `Displayed` column dropped — remaining columns in order, the
same number of rows, every other cell value unchanged — tab-separated and
without the index. -/
theorem save_vis_spec_spec (df : DataFrame)
    (hmem : "Displayed" ∈ df.columns)
    (hrows : ∀ row ∈ df.rows, row.length = df.columns.length) :
    save_vis_spec df
        = .ok ⟨⟨df.columns.filter (fun c => !decide (c = "Displayed")),
                df.rows.map (drop_row df.columns "Displayed")⟩, "\t", false⟩ ∧
    "Displayed" ∉ df.columns.filter (fun c => !decide (c = "Displayed")) ∧
    (df.rows.map (drop_row df.columns "Displayed")).length
      = df.rows.length ∧
    ∀ row ∈ df.rows, ∀ c : String, c ≠ "Displayed" →
      cell (df.columns.filter (fun c => !decide (c = "Displayed")))
          (drop_row df.columns "Displayed" row) c
        = cell df.columns row c := by
  refine ⟨?_, ?_, ?_, ?_⟩
  · simp [save_vis_spec, drop_column, hmem, Except.map]
  · simp
  · simp
  · intro row hrow c hc
    exact cell_drop_row "Displayed" c hc df.columns row (hrows row hrow)

/-- Witness for C6 at a concrete visualization dataframe. -/
theorem save_vis_spec_spec_witness :
    "Displayed" ∈ demo_vis_df.columns ∧
    save_vis_spec demo_vis_df
      = .ok ⟨⟨["plotId"], [["plot1"]]⟩, "\t", false⟩ ∧
    cell ["plotId"] ["plot1"] "plotId"
      = cell ["Displayed", "plotId"] ["1", "plot1"] "plotId" :=
  ⟨by decide,
   (save_vis_spec_spec demo_vis_df (by decide) (by decide)).1,
   (save_vis_spec_spec demo_vis_df (by decide) (by decide)).2.2.2
     ["1", "plot1"] (by decide) "plotId" (by decide)⟩

/-- C7: the error-bar length column is `sd` by default and `sem` when the
first bar row's plot type for data is `MeanAndSEM`, as claimed — but for
`provided` the code reads the column `provided_noise`, which the bars
overview dataframe (built from `BarRow.get_data_df` plus the `x` and
`tick_pos` assignment) does not contain, so the access raises a `KeyError`
instead of using the provided noise values. -/
theorem bar_error_length_provided_missing :
    error_length_column MEAN_AND_SD = "sd" ∧
    "sd" ∈ get_bars_df_columns ∧
    error_length_column MEAN_AND_SEM = "sem" ∧
    "sem" ∈ get_bars_df_columns ∧
    error_length_column PROVIDED = "provided_noise" ∧
    "provided_noise" ∉ get_bars_df_columns := by decide

/-- `index_changed` never changes the number of plots. -/
theorem index_changed_n_plots (st : MainState) (i : ℤ) :
    (index_changed st i).n_plots = st.n_plots := by
  rw [index_changed]
  split <;> rfl

/-- `index_changed` keeps the current index inside the valid range. -/
theorem index_changed_preserves_range (st : MainState) (i : ℤ)
    (h0 : 0 ≤ st.current_list_index)
    (h1 : st.current_list_index < (st.n_plots : ℤ)) :
    0 ≤ (index_changed st i).current_list_index ∧
    (index_changed st i).current_list_index
      < ((index_changed st i).n_plots : ℤ) := by
  by_cases h : 0 ≤ i ∧ i < (st.n_plots : ℤ)
  · rw [index_changed, if_pos h]
    exact ⟨h.1, h.2⟩
  · rw [index_changed, if_neg h]
    exact ⟨h0, h1⟩

/-- One arrow-key event keeps the index in range and the plot count
fixed. -/
theorem keyPressEvent_preserves (st : MainState) (k : ArrowKey)
    (h0 : 0 ≤ st.current_list_index)
    (h1 : st.current_list_index < (st.n_plots : ℤ)) :
    (0 ≤ (keyPressEvent st k).current_list_index ∧
      (keyPressEvent st k).current_list_index
        < ((keyPressEvent st k).n_plots : ℤ)) ∧
    (keyPressEvent st k).n_plots = st.n_plots := by
  cases k <;>
    exact ⟨index_changed_preserves_range st _ h0 h1,
           index_changed_n_plots st _⟩

/-- Any sequence of arrow-key events keeps the index in range and the plot
count fixed. -/
theorem foldl_keyPressEvent_in_range (keys : List ArrowKey) :
    ∀ st : MainState, 0 ≤ st.current_list_index →
      st.current_list_index < (st.n_plots : ℤ) →
        (0 ≤ (keys.foldl keyPressEvent st).current_list_index ∧
          (keys.foldl keyPressEvent st).current_list_index
            < ((keys.foldl keyPressEvent st).n_plots : ℤ)) ∧
        (keys.foldl keyPressEvent st).n_plots = st.n_plots := by
  induction keys with
  | nil =>
      intro st h0 h1
      exact ⟨⟨h0, h1⟩, rfl⟩
  | cons k ks ih =>
      intro st h0 h1
      have hstep := keyPressEvent_preserves st k h0 h1
      have hrest := ih (keyPressEvent st k) hstep.1.1 hstep.1.2
      refine ⟨?_, ?_⟩
      · simpa [List.foldl_cons] using hrest.1
      · rw [List.foldl_cons, hrest.2, hstep.2]

/-- C8: `index_changed i` sets the current plot index to `i` exactly when
`0 ≤ i < number of plots` and leaves the state unchanged otherwise; hence
arrow-key navigation, which goes through `index_changed` with the current
index plus or minus one, never drives the current index out of the valid
range. -/
theorem index_changed_spec (st : MainState) (i : ℤ) :
    ((index_changed st i).current_list_index
        = if 0 ≤ i ∧ i < (st.n_plots : ℤ) then i
          else st.current_list_index) ∧
    (¬(0 ≤ i ∧ i < (st.n_plots : ℤ)) → index_changed st i = st) ∧
    ∀ keys : List ArrowKey, 0 ≤ st.current_list_index →
      st.current_list_index < (st.n_plots : ℤ) →
        0 ≤ (keys.foldl keyPressEvent st).current_list_index ∧
        (keys.foldl keyPressEvent st).current_list_index
          < (st.n_plots : ℤ) := by
  refine ⟨?_, ?_, ?_⟩
  · by_cases h : 0 ≤ i ∧ i < (st.n_plots : ℤ) <;>
      simp [index_changed, h]
  · intro h
    rw [index_changed, if_neg h]
  · intro keys h0 h1
    have hall := foldl_keyPressEvent_in_range keys st h0 h1
    exact ⟨hall.1.1, by rw [← hall.2]; exact hall.1.2⟩

/-- Witness for C8 at a concrete window state: out-of-range index 5 is
rejected, and three arrow keys starting from index 0 of 2 plots end at
index 0, still in range. -/
theorem index_changed_spec_witness :
    (index_changed ⟨2, 0⟩ 5).current_list_index
        = (if 0 ≤ (5 : ℤ) ∧ (5 : ℤ) < ((2 : ℕ) : ℤ) then (5 : ℤ) else 0) ∧
    ¬(0 ≤ (5 : ℤ) ∧ (5 : ℤ) < ((2 : ℕ) : ℤ)) ∧
    index_changed ⟨2, 0⟩ 5 = ⟨2, 0⟩ ∧
    0 ≤ (([.right, .right, .up] : List ArrowKey).foldl keyPressEvent
        ⟨2, 0⟩).current_list_index ∧
    (([.right, .right, .up] : List ArrowKey).foldl keyPressEvent
        ⟨2, 0⟩).current_list_index < ((2 : ℕ) : ℤ) ∧
    (([.right, .right, .up] : List ArrowKey).foldl keyPressEvent
        ⟨2, 0⟩).current_list_index = 0 :=
  ⟨(index_changed_spec ⟨2, 0⟩ 5).1,
   by decide,
   (index_changed_spec ⟨2, 0⟩ 5).2.1 (by decide),
   ((index_changed_spec ⟨2, 0⟩ 5).2.2 [.right, .right, .up]
     (by decide) (by decide)).1,
   ((index_changed_spec ⟨2, 0⟩ 5).2.2 [.right, .right, .up]
     (by decide) (by decide)).2,
   by decide⟩

/-- C9: `get_data_df` raises exactly when the x- and y-data lengths
differ; otherwise it returns a dataframe with one row per x/y pair in
order, in which the name, is_simulation, dataset_id and x_label columns
carry the same constant value in every row. -/
theorem get_data_df_spec (rc : RowClass) :
    ((∃ df, get_data_df rc = .ok df)
        ↔ rc.x_data.length = rc.y_data.length) ∧
    ∀ df, get_data_df rc = .ok df →
      df.length = rc.x_data.length ∧
      (∀ r ∈ df, r.name = rc.legend_name ∧
        r.is_simulation = rc.is_simulation ∧
        r.dataset_id = rc.dataset_id ∧ r.x_label = rc.x_label) ∧
      ∀ i, i < df.length →
        (df.getD i default).x = rc.x_data.getD i 0 ∧
        (df.getD i default).y = rc.y_data.getD i 0 := by
  by_cases h : rc.x_data.length = rc.y_data.length
  · refine ⟨⟨fun _ => h, fun _ => ⟨_, by rw [get_data_df, if_pos h]⟩⟩, ?_⟩
    intro df hdf
    rw [get_data_df, if_pos h] at hdf
    injection hdf with hdf
    subst hdf
    refine ⟨?_, ?_, ?_⟩
    · rw [List.length_map, List.length_zip, h, min_self]
    · intro r hr
      rcases List.mem_map.mp hr with ⟨p, _, rfl⟩
      exact ⟨rfl, rfl, rfl, rfl⟩
    · intro i hi
      rw [List.length_map] at hi
      have hix : i < rc.x_data.length := by
        rw [List.length_zip] at hi
        exact lt_of_lt_of_le hi (min_le_left _ _)
      have hiy : i < rc.y_data.length := by
        rw [List.length_zip] at hi
        exact lt_of_lt_of_le hi (min_le_right _ _)
      rw [List.getD_eq_getElem _ _ (by simpa using hi),
        List.getD_eq_getElem _ _ hix, List.getD_eq_getElem _ _ hiy,
        List.getElem_map, List.getElem_zip]
      exact ⟨rfl, rfl⟩
  · refine ⟨⟨?_, fun hh => absurd hh h⟩, ?_⟩
    · rintro ⟨df, hdf⟩
      rw [get_data_df, if_neg h] at hdf
      simp at hdf
    · intro df hdf
      rw [get_data_df, if_neg h] at hdf
      simp at hdf

/-- Witness for C9 at a concrete row object with two x/y pairs. -/
theorem get_data_df_spec_witness :
    demo_rc.x_data.length = demo_rc.y_data.length ∧
    get_data_df demo_rc = .ok demo_drows ∧
    demo_drows.length = demo_rc.x_data.length ∧
    (demo_drows.getD 0 default).x = demo_rc.x_data.getD 0 0 :=
  ⟨rfl, rfl,
   ((get_data_df_spec demo_rc).2 demo_drows rfl).1,
   (((get_data_df_spec demo_rc).2 demo_drows rfl).2.2 0 (by decide)).1⟩

end Petabvis
